import Mathlib

/-!
Verification development for the Flamenco Worker.

The central object is the durable upstream task-update queue of
flamenco_worker/upstream_update_queue.py (class TaskUpdateQueue): payloads
are stored as rows of the SQLite table fworker_queue(url TEXT, payload BLOB),
reading back in ascending implicit-rowid order, and a drain pass
(TaskUpdateQueue.flush) POSTs them to the Manager one by one.

The embedding below models one drain pass as a pure function over the list of
rows currently in the store, ordered by ascending rowid, exactly as the
SELECT in TaskUpdateQueue._queue yields them.  The Manager's reaction to the
k-th POST of the pass is given by a function from the POST's index to an
outcome: either a requests.ConnectionError raised by manager.post, or a
completed HTTP response with a status code.
-/

set_option autoImplicit false

namespace FlamencoWorker

/-- BACKOFF_TIME = 5 seconds, module-level constant of
upstream_update_queue.py, default for TaskUpdateQueue.backoff_time. -/
def BACKOFF_TIME : Nat := 5

/-- One row of the durable store: the implicit SQLite rowid (unique,
assigned in increasing order on INSERT), the url column and the pickled
payload blob. -/
structure Row where
  rowid : Nat
  url : String
  payload : String
deriving Repr, DecidableEq

/-- Outcome of one manager.post call: either the call raises
requests.ConnectionError, or it completes with an HTTP response carrying a
status code. -/
inductive PostOutcome where
  | connError : PostOutcome
  | response : Nat → PostOutcome
deriving Repr, DecidableEq

/-- Behaviour of requests.Response.raise_for_status, called by
TaskUpdateQueue.flush on every non-409 response: it raises HTTPError exactly
for status codes 400 through 599 and returns normally for every other code. -/
def raise_for_status_raises (c : Nat) : Bool :=
  decide (400 ≤ c) && decide (c < 600)

/-- A status code that TaskUpdateQueue.flush handles without an exception:
either the explicit 409 branch (discard, Manager says the task is not ours),
or any code for which raise_for_status does not raise. -/
def goodStatus (c : Nat) : Bool :=
  (c == 409) || !(raise_for_status_raises c)

/-- A POST outcome after which flush unqueues the row and continues: a
completed response whose status is good.  A connection error or a raising
status aborts the pass by exception. -/
def goodPost : PostOutcome → Bool
  | .connError => false
  | .response c => goodStatus c

/-- Result of the for-loop inside TaskUpdateQueue.flush: the rows still in
the store, the rows POSTed (attempted) in order, the final value of the
`handled` counter, and whether an exception propagated out of the loop. -/
structure LoopResult where
  remaining : List Row
  posted : List Row
  handled : Nat
  raised : Bool
deriving Repr, DecidableEq

/-- The body of the for-loop of TaskUpdateQueue.flush over the rows yielded
by TaskUpdateQueue._queue (SELECT rowid, url, payload FROM fworker_queue
ORDER BY rowid ASC), starting from a given value of the `handled` counter.

For each row: POST it; on a good outcome (409 or a non-raising status) the
row is unqueued by TaskUpdateQueue._unqueue -- a DELETE of its unique rowid,
which removes exactly the row the cursor just yielded, so the rest of the
snapshot is untouched -- then `handled` is incremented and the loop breaks
once `handled > 1000`; on a connection error or a raising status the
exception propagates, leaving the current row and all later rows in the
store. -/
def flushItems (mgr : Nat → PostOutcome) : List Row → Nat → LoopResult
  | [], handled => ⟨[], [], handled, false⟩
  | r :: rest, handled =>
    if goodPost (mgr handled) then
      if handled + 1 > 1000 then
        ⟨rest, [r], handled + 1, false⟩
      else
        let res := flushItems mgr rest (handled + 1)
        ⟨res.remaining, r :: res.posted, res.handled, res.raised⟩
    else
      ⟨r :: rest, [r], handled, true⟩

/-- State of a TaskUpdateQueue between passes: the rows of the durable store
in ascending rowid order, the next rowid SQLite will assign, and the
_stuff_queued asyncio.Event. -/
structure QueueState where
  store : List Row
  nextRowid : Nat
  stuffQueued : Bool
deriving Repr, DecidableEq

/-- Result of one call to TaskUpdateQueue.flush: the queue state afterwards,
the POSTs made in order, the `handled` counter, and the return value --
`some b` when flush returned the boolean b (queue_is_empty), `none` when an
exception (ConnectionError or HTTPError) propagated out of the pass. -/
structure FlushResult where
  q : QueueState
  posted : List Row
  handled : Nat
  result : Option Bool
deriving Repr, DecidableEq

/-- TaskUpdateQueue.flush: one drain pass.  queue_is_empty starts True and
becomes False as soon as the loop yields an item, so it records whether the
store was empty on entry.  After the loop (also after a cap break), the
_stuff_queued event is cleared only when queue_is_empty is still True; when
an exception propagates, neither the event update nor the return statement
is reached. -/
def TaskUpdateQueue.flush (mgr : Nat → PostOutcome) (q : QueueState) : FlushResult :=
  let res := flushItems mgr q.store 0
  if res.raised then
    ⟨⟨res.remaining, q.nextRowid, q.stuffQueued⟩, res.posted, res.handled, none⟩
  else
    ⟨⟨res.remaining, q.nextRowid, if q.store.isEmpty then false else q.stuffQueued⟩,
      res.posted, res.handled, some q.store.isEmpty⟩

/-- TaskUpdateQueue.queue: INSERT INTO fworker_queue (url, payload), which
appends a row with the next implicit rowid (larger than every rowid already
in the table), then sets the _stuff_queued event. -/
def TaskUpdateQueue.queue (q : QueueState) (url payload : String) : QueueState :=
  ⟨q.store ++ [⟨q.nextRowid, url, payload⟩], q.nextRowid + 1, true⟩

/-- TaskUpdateQueue.queue_size: SELECT count(*) FROM fworker_queue. -/
def TaskUpdateQueue.queue_size (q : QueueState) : Nat :=
  q.store.length

/-- Result of TaskUpdateQueue.flush_and_catch: the queue state, the POSTs
made, and `some t` when the except-branches slept t seconds via
asyncio.sleep(self.backoff_time) before returning, `none` when flush
returned normally. -/
structure CatchResult where
  q : QueueState
  posted : List Row
  sleptSeconds : Option Nat
deriving Repr, DecidableEq

/-- TaskUpdateQueue.flush_and_catch: awaits flush; on ConnectionError,
HTTPError or any other exception it logs and awaits
asyncio.sleep(self.backoff_time); on normal return it sleeps nothing. -/
def TaskUpdateQueue.flush_and_catch (mgr : Nat → PostOutcome) (backoffTime : Nat)
    (q : QueueState) : CatchResult :=
  let fr := TaskUpdateQueue.flush mgr q
  match fr.result with
  | some _ => ⟨fr.q, fr.posted, none⟩
  | none => ⟨fr.q, fr.posted, some backoffTime⟩

/-- Modelled from the spec: flamenco_worker/may_i_run.py (class MayIRun) is
not among the provided sources, only its test is.  Spec section 4.5: the
may-I-run GET returns a document of shape
may_keep_running: bool, reason?: string, status_requested?: string. -/
structure MayIRunResponse where
  may_keep_running : Bool
  reason : Option String
  status_requested : Option String
deriving Repr, DecidableEq

/-- Modelled from the spec: MayIRun.may_i_run of the absent
flamenco_worker/may_i_run.py.  Spec section 4.5: may_keep_running=true means
no action; may_keep_running=false with status_requested=s means call
worker.change_status(s) and return false; may_keep_running=false without a
status means return false (the caller aborts with the reason).  The second
component lists the arguments of the worker.change_status calls made, in
order. -/
def may_i_run (resp : MayIRunResponse) : Bool × List String :=
  if resp.may_keep_running then
    (true, [])
  else
    match resp.status_requested with
    | some s => (false, [s])
    | none => (false, [])

/-- How a standard stream of the spawned child is wired:
subprocess.DEVNULL, subprocess.PIPE, or subprocess.STDOUT (stderr merged
into stdout). -/
inductive StdioSpec where
  | devnull : StdioSpec
  | pipe : StdioSpec
  | toStdout : StdioSpec
deriving Repr, DecidableEq

/-- One asyncio.create_subprocess_exec call: the argv and the wiring of the
child's stdin, stdout and stderr. -/
structure SpawnCall where
  argv : List String
  stdin : StdioSpec
  stdout : StdioSpec
  stderr : StdioSpec
deriving Repr, DecidableEq

/-- Settings of the blender-render-audio command (spec scenario S1). -/
structure RenderAudioSettings where
  blender_cmd : String
  frame_start : Nat
  frame_end : Nat
  filepath : String
  render_output : String
deriving Repr, DecidableEq

/-- Modelled from the spec: the blender_cmd setting is one string that is
split shell-style into argv words, a double quote opening a region in which
spaces do not separate words and the quotes themselves are dropped, so that
the setting with the quoted part cli="args for CLI" becomes the single word
cli=args for CLI (spec scenario S1). -/
def shellSplitGo : List Char → Bool → List Char → List String → List String
  | [], _, cur, acc =>
    ((if cur = [] then acc else String.mk cur.reverse :: acc)).reverse
  | ch :: rest, inQuote, cur, acc =>
    if ch == Char.ofNat 34 then
      shellSplitGo rest (!inQuote) cur acc
    else if ch == Char.ofNat 32 && !inQuote then
      if cur = [] then
        shellSplitGo rest inQuote [] acc
      else
        shellSplitGo rest inQuote [] (String.mk cur.reverse :: acc)
    else
      shellSplitGo rest inQuote (ch :: cur) acc

/-- Split a command-line setting string into argv words. -/
def shellSplit (s : String) : List String :=
  shellSplitGo s.data false [] []

/-- A string wrapped in single quotes, as the generated Python script quotes
the mixdown filepath. -/
def pyQuoted (s : String) : String :=
  "\x27" ++ s ++ "\x27"

/-- Modelled from the spec: the Python expression handed to blender by the
blender-render-audio command (spec scenario S1): set the scene's frame_start
and frame_end, run sound.mixdown to the render output with codec FLAC,
container FLAC and accuracy 128, then quit. -/
def audioScript (frame_start frame_end : Nat) (render_output : String) : String :=
  "import bpy\n" ++
  "bpy.context.scene.frame_start = " ++ toString frame_start ++ "\n" ++
  "bpy.context.scene.frame_end = " ++ toString frame_end ++ "\n" ++
  "bpy.ops.sound.mixdown(filepath=" ++ pyQuoted render_output ++
    ", codec=\x27FLAC\x27, container=\x27FLAC\x27, accuracy=128)\n" ++
  "bpy.ops.wm.quit_blender()"

/-- Modelled from the spec: the subprocess spawn composed by
BlenderRenderAudioCommand (absent flamenco_worker/commands.py, spec scenario
S1): argv is the split blender_cmd followed by --enable-autoexec, -noaudio,
--background, the blendfile path, --python-exit-code 47 and --python-expr
with the generated script; stdin is closed (DEVNULL) and stdout and stderr
are merged into one pipe. -/
def renderAudioSpawn (s : RenderAudioSettings) : SpawnCall :=
  ⟨shellSplit s.blender_cmd ++
      ["--enable-autoexec", "-noaudio", "--background", s.filepath,
        "--python-exit-code", "47", "--python-expr",
        audioScript s.frame_start s.frame_end s.render_output],
    .devnull, .pipe, .toStdout⟩

/-! Helper lemmas about the flush loop. -/

theorem flushItems_handled_ge (mgr : Nat → PostOutcome) :
    ∀ (l : List Row) (h : Nat), h ≤ (flushItems mgr l h).handled := by
  intro l
  induction l with
  | nil => intro h; simp [flushItems]
  | cons r rest ih =>
    intro h
    simp only [flushItems]
    by_cases hg : goodPost (mgr h) = true
    · simp only [hg, if_true]
      by_cases hc : h + 1 > 1000
      · simp [hc]
      · simpa [hc] using le_trans (Nat.le_succ h) (ih (h + 1))
    · simp [hg]

theorem flushItems_remaining (mgr : Nat → PostOutcome) :
    ∀ (l : List Row) (h : Nat),
      (flushItems mgr l h).remaining = l.drop ((flushItems mgr l h).handled - h) := by
  intro l
  induction l with
  | nil => intro h; simp [flushItems]
  | cons r rest ih =>
    intro h
    simp only [flushItems]
    by_cases hg : goodPost (mgr h) = true
    · simp only [hg, if_true]
      by_cases hc : h + 1 > 1000
      · simp [hc]
      · have hge := flushItems_handled_ge mgr rest (h + 1)
        have harith : (flushItems mgr rest (h + 1)).handled - h
            = ((flushItems mgr rest (h + 1)).handled - (h + 1)) + 1 := by omega
        simp only [hc, if_false]
        simpa [harith] using ih (h + 1)
    · simp [hg]

theorem flushItems_posted_take (mgr : Nat → PostOutcome) :
    ∀ (l : List Row) (h : Nat),
      (flushItems mgr l h).posted = l.take (flushItems mgr l h).posted.length := by
  intro l
  induction l with
  | nil => intro h; simp [flushItems]
  | cons r rest ih =>
    intro h
    simp only [flushItems]
    by_cases hg : goodPost (mgr h) = true
    · simp only [hg, if_true]
      by_cases hc : h + 1 > 1000
      · simp [hc]
      · simp only [hc, if_false]
        simpa [List.take_succ_cons] using congrArg (r :: ·) (ih (h + 1))
    · simp [hg]

theorem flushItems_handled_cap (mgr : Nat → PostOutcome) :
    ∀ (l : List Row) (h : Nat), h ≤ 1000 → (flushItems mgr l h).handled ≤ 1001 := by
  intro l
  induction l with
  | nil => intro h hh; simpa [flushItems] using by omega
  | cons r rest ih =>
    intro h hh
    simp only [flushItems]
    by_cases hg : goodPost (mgr h) = true
    · simp only [hg, if_true]
      by_cases hc : h + 1 > 1000
      · simp only [hc, if_true]; omega
      · simpa [hc] using ih (h + 1) (by omega)
    · simp only [hg]
      simp only [Bool.not_eq_true] at hg
      simp [hg]
      omega


theorem flushItems_good_of_lt (mgr : Nat → PostOutcome) :
    ∀ (l : List Row) (h k : Nat), h ≤ k → k < (flushItems mgr l h).handled →
      goodPost (mgr k) = true := by
  intro l
  induction l with
  | nil =>
    intro h k hhk hk
    simp only [flushItems] at hk
    omega
  | cons r rest ih =>
    intro h k hhk hk
    by_cases hg : goodPost (mgr h) = true
    · by_cases hc : h + 1 > 1000
      · have hh : (flushItems mgr (r :: rest) h).handled = h + 1 := by
          simp [flushItems, hg, hc]
        rw [hh] at hk
        have hkh : k = h := by omega
        exact hkh ▸ hg
      · have hh : (flushItems mgr (r :: rest) h).handled
            = (flushItems mgr rest (h + 1)).handled := by
          simp [flushItems, hg, hc]
        rw [hh] at hk
        rcases Nat.eq_or_lt_of_le hhk with heq | hlt
        · exact heq ▸ hg
        · exact ih (h + 1) k hlt hk
    · have hh : (flushItems mgr (r :: rest) h).handled = h := by
        simp [flushItems, hg]
      rw [hh] at hk
      omega

theorem flushItems_raised_bad (mgr : Nat → PostOutcome) :
    ∀ (l : List Row) (h : Nat), (flushItems mgr l h).raised = true →
      goodPost (mgr (flushItems mgr l h).handled) = false ∧
        (flushItems mgr l h).handled - h < l.length := by
  intro l
  induction l with
  | nil => intro h hr; simp [flushItems] at hr
  | cons r rest ih =>
    intro h hr
    simp only [flushItems] at hr ⊢
    by_cases hg : goodPost (mgr h) = true
    · simp only [hg, if_true] at hr ⊢
      by_cases hc : h + 1 > 1000
      · simp [hc] at hr
      · simp only [hc, if_false] at hr ⊢
        have hge := flushItems_handled_ge mgr rest (h + 1)
        rcases ih (h + 1) hr with ⟨hbad, hlen⟩
        exact ⟨hbad, by simpa using by omega⟩
    · simp only [hg, if_false] at hr ⊢
      simp only [Bool.not_eq_true] at hg
      exact ⟨hg, by simp⟩

theorem flushItems_posted_length (mgr : Nat → PostOutcome) :
    ∀ (l : List Row) (h : Nat),
      (flushItems mgr l h).posted.length =
        ((flushItems mgr l h).handled - h) +
          (if (flushItems mgr l h).raised then 1 else 0) := by
  intro l
  induction l with
  | nil => intro h; simp [flushItems]
  | cons r rest ih =>
    intro h
    simp only [flushItems]
    by_cases hg : goodPost (mgr h) = true
    · simp only [hg, if_true]
      by_cases hc : h + 1 > 1000
      · simp [hc]
      · simp only [hc, if_false]
        have hge := flushItems_handled_ge mgr rest (h + 1)
        have := ih (h + 1)
        cases hr : (flushItems mgr rest (h + 1)).raised <;>
          simp [hr] at this ⊢ <;> omega
    · simp [hg]

theorem flushItems_reaches (mgr : Nat → PostOutcome) :
    ∀ (l : List Row) (h i : Nat), i < l.length →
      (∀ j, j < i → goodPost (mgr (h + j)) = true) →
      goodPost (mgr (h + i)) = true → h + i ≤ 1000 →
      h + i < (flushItems mgr l h).handled := by
  intro l
  induction l with
  | nil => intro h i hi; simp at hi
  | cons r rest ih =>
    intro h i hi hprev hgood hcap
    cases i with
    | zero =>
      simp only [Nat.add_zero] at hgood ⊢
      by_cases hc : h + 1 > 1000
      · have hh : (flushItems mgr (r :: rest) h).handled = h + 1 := by
          simp [flushItems, hgood, hc]
        omega
      · have hh : (flushItems mgr (r :: rest) h).handled
            = (flushItems mgr rest (h + 1)).handled := by
          simp [flushItems, hgood, hc]
        have hge := flushItems_handled_ge mgr rest (h + 1)
        omega
    | succ i' =>
      have hg0 : goodPost (mgr h) = true := by
        have h2 := hprev 0 (Nat.succ_pos i')
        simpa using h2
      have hc : ¬(h + 1 > 1000) := by omega
      have hh : (flushItems mgr (r :: rest) h).handled
          = (flushItems mgr rest (h + 1)).handled := by
        simp [flushItems, hg0, hc]
      have hlen : i' < rest.length := by
        simp only [List.length_cons] at hi
        omega
      have hprev2 : ∀ j, j < i' → goodPost (mgr (h + 1 + j)) = true := by
        intro j hj
        have h2 := hprev (j + 1) (by omega)
        have heq : h + (j + 1) = h + 1 + j := by omega
        rwa [heq] at h2
      have hgood2 : goodPost (mgr (h + 1 + i')) = true := by
        have heq : h + 1 + i' = h + (i' + 1) := by omega
        rw [heq]
        exact hgood
      have hres := ih (h + 1) i' hlen hprev2 hgood2 (by omega)
      omega

theorem flushItems_stops_at_bad (mgr : Nat → PostOutcome) :
    ∀ (l : List Row) (h i : Nat), i < l.length →
      (∀ j, j < i → goodPost (mgr (h + j)) = true) →
      goodPost (mgr (h + i)) = false → h + i ≤ 1000 →
      (flushItems mgr l h).raised = true ∧ (flushItems mgr l h).handled = h + i := by
  intro l
  induction l with
  | nil => intro h i hi; simp at hi
  | cons r rest ih =>
    intro h i hi hprev hbad hcap
    cases i with
    | zero =>
      simp only [Nat.add_zero] at hbad ⊢
      have hg : ¬(goodPost (mgr h) = true) := by simp [hbad]
      constructor
      · simp [flushItems, hg]
      · simp [flushItems, hg]
    | succ i' =>
      have hg0 : goodPost (mgr h) = true := by
        have h2 := hprev 0 (Nat.succ_pos i')
        simpa using h2
      have hc : ¬(h + 1 > 1000) := by omega
      have hhr : (flushItems mgr (r :: rest) h).raised
          = (flushItems mgr rest (h + 1)).raised := by
        simp [flushItems, hg0, hc]
      have hhh : (flushItems mgr (r :: rest) h).handled
          = (flushItems mgr rest (h + 1)).handled := by
        simp [flushItems, hg0, hc]
      have hlen : i' < rest.length := by
        simp only [List.length_cons] at hi
        omega
      have hprev2 : ∀ j, j < i' → goodPost (mgr (h + 1 + j)) = true := by
        intro j hj
        have h2 := hprev (j + 1) (by omega)
        have heq : h + (j + 1) = h + 1 + j := by omega
        rwa [heq] at h2
      have hbad2 : goodPost (mgr (h + 1 + i')) = false := by
        have heq : h + 1 + i' = h + (i' + 1) := by omega
        rw [heq]
        exact hbad
      have hres := ih (h + 1) i' hlen hprev2 hbad2 (by omega)
      refine ⟨by rw [hhr]; exact hres.1, ?_⟩
      rw [hhh, hres.2]
      omega

theorem flushItems_complete (mgr : Nat → PostOutcome) :
    ∀ (l : List Row) (h : Nat), h ≤ 1000 → (flushItems mgr l h).raised = false →
      (flushItems mgr l h).handled = h + l.length ∨
        (flushItems mgr l h).handled = 1001 := by
  intro l
  induction l with
  | nil => intro h hh hr; simp [flushItems]
  | cons r rest ih =>
    intro h hh hr
    simp only [flushItems] at hr ⊢
    by_cases hg : goodPost (mgr h) = true
    · simp only [hg, if_true] at hr ⊢
      by_cases hc : h + 1 > 1000
      · simp only [hc, if_true]
        right
        omega
      · simp only [hc, if_false] at hr ⊢
        rcases ih (h + 1) (by omega) hr with heq | heq
        · left
          simp [heq]
          omega
        · right
          simpa using heq
    · simp [hg] at hr

/-! Bridges between TaskUpdateQueue.flush and its inner loop. -/

theorem flush_handled (mgr : Nat → PostOutcome) (q : QueueState) :
    (TaskUpdateQueue.flush mgr q).handled = (flushItems mgr q.store 0).handled := by
  by_cases hr : (flushItems mgr q.store 0).raised <;>
    simp [TaskUpdateQueue.flush, hr]

theorem flush_posted (mgr : Nat → PostOutcome) (q : QueueState) :
    (TaskUpdateQueue.flush mgr q).posted = (flushItems mgr q.store 0).posted := by
  by_cases hr : (flushItems mgr q.store 0).raised <;>
    simp [TaskUpdateQueue.flush, hr]

theorem flush_store (mgr : Nat → PostOutcome) (q : QueueState) :
    (TaskUpdateQueue.flush mgr q).q.store = (flushItems mgr q.store 0).remaining := by
  by_cases hr : (flushItems mgr q.store 0).raised <;>
    simp [TaskUpdateQueue.flush, hr]

theorem flush_result_eq (mgr : Nat → PostOutcome) (q : QueueState) :
    (TaskUpdateQueue.flush mgr q).result
      = if (flushItems mgr q.store 0).raised then none else some q.store.isEmpty := by
  by_cases hr : (flushItems mgr q.store 0).raised <;>
    simp [TaskUpdateQueue.flush, hr]

theorem flush_event (mgr : Nat → PostOutcome) (q : QueueState) :
    (TaskUpdateQueue.flush mgr q).q.stuffQueued
      = if (flushItems mgr q.store 0).raised then q.stuffQueued
        else if q.store.isEmpty then false else q.stuffQueued := by
  by_cases hr : (flushItems mgr q.store 0).raised <;>
    simp [TaskUpdateQueue.flush, hr]

theorem flush_store_drop (mgr : Nat → PostOutcome) (q : QueueState) :
    (TaskUpdateQueue.flush mgr q).q.store
      = q.store.drop (TaskUpdateQueue.flush mgr q).handled := by
  rw [flush_store, flush_handled]
  simpa using flushItems_remaining mgr q.store 0

theorem flushItems_nil_not_raised (mgr : Nat → PostOutcome) (q : QueueState)
    (hr : (flushItems mgr q.store 0).raised = true) : q.store ≠ [] := by
  intro hempty
  rw [hempty] at hr
  simp [flushItems] at hr

/-! Claim theorems. -/

/-- C2: a flush pass POSTs the queued items in exactly the order in which
they were enqueued: the sequence of POSTs is precisely an initial segment of
the store in ascending-rowid order, and enqueueing appends a row with the
next (largest so far) rowid at the tail, so the drainer never reorders two
items. -/
theorem C2_flush_posts_in_enqueue_order (mgr : Nat → PostOutcome)
    (q : QueueState) (url payload : String) :
    (TaskUpdateQueue.flush mgr q).posted
        = q.store.take (TaskUpdateQueue.flush mgr q).posted.length
      ∧ (TaskUpdateQueue.queue q url payload).store
          = q.store ++ [⟨q.nextRowid, url, payload⟩]
      ∧ (TaskUpdateQueue.queue q url payload).nextRowid = q.nextRowid + 1 := by
  refine ⟨?_, rfl, rfl⟩
  rw [flush_posted]
  exact flushItems_posted_take mgr q.store 0

/-- C5: flush returns True exactly when the store held no items at the
moment the pass started; on a non-empty store it either returns False (even
when every item was delivered) or propagates an exception and returns
nothing at all. -/
theorem C5_flush_returns_empty_on_entry (mgr : Nat → PostOutcome)
    (q : QueueState) :
    (TaskUpdateQueue.flush mgr q).result = some q.store.isEmpty
      ∨ ((TaskUpdateQueue.flush mgr q).result = none ∧ q.store ≠ []) := by
  rw [flush_result_eq]
  by_cases hr : (flushItems mgr q.store 0).raised
  · right
    exact ⟨by simp [hr], flushItems_nil_not_raised mgr q hr⟩
  · left
    simp [hr]

/-- C6 counterexample: a pass over a one-item store whose POST is accepted
with 200 drains the queue completely, yet the work-available event is left
set, refuting the claim that the event is cleared whenever the pass fully
drained the queue. -/
theorem C6_counterexample :
    (TaskUpdateQueue.flush (fun _ => .response 200)
        ⟨[⟨1, "/tasks/t1/update", "p1"⟩], 2, true⟩).q.store = []
      ∧ (TaskUpdateQueue.flush (fun _ => .response 200)
          ⟨[⟨1, "/tasks/t1/update", "p1"⟩], 2, true⟩).q.stuffQueued = true :=
  ⟨rfl, rfl⟩

/-- C6 (amended): after a drain pass the work-available event is cleared
exactly when the queue was already empty on entry to the pass; in every
other case -- including a pass that delivered every queued item -- the event
keeps its previous value, and it is the following pass over the now-empty
queue that clears it. -/
theorem C6_event_cleared_iff_empty_on_entry (mgr : Nat → PostOutcome)
    (q : QueueState) :
    (TaskUpdateQueue.flush mgr q).q.stuffQueued
      = if q.store.isEmpty then false else q.stuffQueued := by
  rw [flush_event]
  by_cases hr : (flushItems mgr q.store 0).raised
  · have hne : q.store ≠ [] := flushItems_nil_not_raised mgr q hr
    have hie : q.store.isEmpty = false := by
      cases hcs : q.store with
      | nil => exact absurd hcs hne
      | cons a as => rfl
    simp [hr, hie]
  · simp [hr]

set_option maxRecDepth 100000 in
/-- C7 counterexample: on a store of 1002 rows with a Manager accepting
every POST with 204, one flush pass handles 1001 items, not at most 1000. -/
theorem C7_counterexample :
    (TaskUpdateQueue.flush (fun _ => .response 204)
        ⟨(List.range 1002).map (fun i => ⟨i, "/tasks/t/update", "p"⟩), 1002,
          true⟩).handled = 1001 := by
  rfl

/-- C7 (amended): a single flush pass handles (POSTs and unqueues) at most
1001 items -- the loop breaks only once the handled counter exceeds 1000,
so the 1001st item is still handled -- and whatever it does not handle is
exactly the corresponding tail of the store, left for a later pass. -/
theorem C7_flush_handles_at_most_1001 (mgr : Nat → PostOutcome)
    (q : QueueState) :
    (TaskUpdateQueue.flush mgr q).handled ≤ 1001
      ∧ (TaskUpdateQueue.flush mgr q).q.store
          = q.store.drop (TaskUpdateQueue.flush mgr q).handled := by
  refine ⟨?_, flush_store_drop mgr q⟩
  rw [flush_handled]
  exact flushItems_handled_cap mgr q.store 0 (by omega)

/-- C10: a flush pass over an empty store performs no POST and deletes no
row: the store is unchanged, the pass returns True, and the only state
change is the clearing of the work-available event. -/
theorem C10_flush_on_empty_store_is_frame (mgr : Nat → PostOutcome)
    (q : QueueState) (hempty : q.store = []) :
    TaskUpdateQueue.flush mgr q = ⟨⟨q.store, q.nextRowid, false⟩, [], 0, some true⟩ := by
  obtain ⟨store, n, b⟩ := q
  simp only at hempty
  subst hempty
  rfl

/-- C10 witness: the frame property evaluated on a concrete empty queue and
a Manager that would reject every POST. -/
theorem C10_flush_on_empty_store_is_frame_witness :
    (⟨[], 7, true⟩ : QueueState).store = []
      ∧ TaskUpdateQueue.flush (fun _ => .connError) ⟨[], 7, true⟩
          = ⟨⟨[], 7, false⟩, [], 0, some true⟩ :=
  ⟨rfl, C10_flush_on_empty_store_is_frame (fun _ => .connError) ⟨[], 7, true⟩ rfl⟩

/-- C8: when the may-I-run response has may_keep_running false and carries a
status_requested field, may_i_run returns false and worker.change_status is
called exactly once with exactly the status_requested string of the
response, whatever it is -- in particular the non-ASCII Unicode string of
the test is forwarded character for character. -/
theorem C8_status_requested_forwarded_verbatim (r : Option String) (s : String) :
    may_i_run ⟨false, r, some s⟩ = (false, [s])
      ∧ may_i_run ⟨false, some "switching status", some "Сергей"⟩
          = (false, ["Сергей"]) :=
  ⟨rfl, rfl⟩

/-- C9: for the render-audio command with the settings of spec scenario S1,
the spawned subprocess gets exactly the argv made of the shell-split
blender_cmd, then --enable-autoexec, -noaudio, --background, the blendfile,
--python-exit-code 47 and --python-expr with the script that sets
frame_start 1 and frame_end 47, mixes down to /tmp/output.flac with codec
FLAC, container FLAC and accuracy 128 and quits; stdin is closed and stdout
and stderr are merged into one pipe. -/
theorem C9_render_audio_argv :
    renderAudioSpawn
        ⟨"/usr/bin/blender --with --cli=\"args for CLI\"", 1, 47,
          "/x/f.blend", "/tmp/output.flac"⟩
      = ⟨["/usr/bin/blender", "--with", "--cli=args for CLI",
            "--enable-autoexec", "-noaudio", "--background", "/x/f.blend",
            "--python-exit-code", "47", "--python-expr",
            "import bpy\nbpy.context.scene.frame_start = 1\nbpy.context.scene.frame_end = 47\nbpy.ops.sound.mixdown(filepath=\x27/tmp/output.flac\x27, codec=\x27FLAC\x27, container=\x27FLAC\x27, accuracy=128)\nbpy.ops.wm.quit_blender()"],
          .devnull, .pipe, .toStdout⟩ := by
  rfl

/-- C1 counterexample: a POST that completes with status 303 -- a non-2xx,
non-409 status -- does not leave the row queued as the claim requires:
raise_for_status does not raise on 303, so flush deletes the row and the
pass returns normally. -/
theorem C1_counterexample :
    (TaskUpdateQueue.flush (fun _ => .response 303)
        ⟨[⟨1, "/tasks/t1/update", "p1"⟩], 2, true⟩).q.store = []
      ∧ (TaskUpdateQueue.flush (fun _ => .response 303)
          ⟨[⟨1, "/tasks/t1/update", "p1"⟩], 2, true⟩).result = some false
      ∧ (303 == 409) = false ∧ 300 ≤ 303 :=
  ⟨rfl, rfl, rfl, by omega⟩

/-- C1 (amended): every row of the store is, after one flush pass, either
still in the store or was removed after a POST of it completed with a
non-raising outcome -- HTTP 409 or any status outside 400-599, which
includes every 2xx; the rows removed are exactly an initial segment of the
store, so on a connection error or a raising 400-599 status the failing row
and all later rows remain queued, and the outcome at the point of failure
was indeed bad.  Hence every accepted update is either POSTed at least once
or stays in the durable store. -/
theorem C1_delivered_or_retained (mgr : Nat → PostOutcome) (q : QueueState)
    (r : Row) (hr : r ∈ q.store) :
    (r ∈ (TaskUpdateQueue.flush mgr q).q.store
        ∨ ∃ k, q.store.get? k = some r
            ∧ k < (TaskUpdateQueue.flush mgr q).handled
            ∧ goodPost (mgr k) = true)
      ∧ (TaskUpdateQueue.flush mgr q).q.store
          = q.store.drop (TaskUpdateQueue.flush mgr q).handled
      ∧ ((TaskUpdateQueue.flush mgr q).result = none
          → goodPost (mgr (TaskUpdateQueue.flush mgr q).handled) = false) := by
  refine ⟨?_, flush_store_drop mgr q, ?_⟩
  · have hsplit := List.take_append_drop (TaskUpdateQueue.flush mgr q).handled q.store
    have hr2 : r ∈ q.store.take (TaskUpdateQueue.flush mgr q).handled
        ++ q.store.drop (TaskUpdateQueue.flush mgr q).handled := by
      rw [hsplit]
      exact hr
    rcases List.mem_append.mp hr2 with htake | hdrop
    · right
      rcases List.mem_iff_get?.mp htake with ⟨k, hk⟩
      rw [List.get?_eq_getElem?, List.getElem?_take] at hk
      by_cases hkn : k < (TaskUpdateQueue.flush mgr q).handled
      · rw [if_pos hkn] at hk
        refine ⟨k, ?_, hkn, ?_⟩
        · rw [List.get?_eq_getElem?]
          exact hk
        · refine flushItems_good_of_lt mgr q.store 0 k (Nat.zero_le k) ?_
          rw [← flush_handled]
          exact hkn
      · rw [if_neg hkn] at hk
        cases hk
    · left
      rw [flush_store_drop mgr q]
      exact hdrop
  · intro hnone
    rw [flush_result_eq] at hnone
    by_cases hrs : (flushItems mgr q.store 0).raised = true
    · rw [flush_handled]
      exact (flushItems_raised_bad mgr q.store 0 hrs).1
    · simp [hrs] at hnone

/-- C1 witness: the amended claim evaluated on a one-row store whose POST is
accepted with 204. -/
theorem C1_delivered_or_retained_witness :
    (⟨1, "u", "p"⟩ : Row) ∈ ([⟨1, "u", "p"⟩] : List Row)
      ∧ (((⟨1, "u", "p"⟩ : Row)
            ∈ (TaskUpdateQueue.flush (fun _ => .response 204)
                ⟨[⟨1, "u", "p"⟩], 2, true⟩).q.store
          ∨ ∃ k, ([⟨1, "u", "p"⟩] : List Row).get? k = some ⟨1, "u", "p"⟩
              ∧ k < (TaskUpdateQueue.flush (fun _ => .response 204)
                  ⟨[⟨1, "u", "p"⟩], 2, true⟩).handled
              ∧ goodPost ((fun _ => .response 204) k) = true)
        ∧ (TaskUpdateQueue.flush (fun _ => .response 204)
              ⟨[⟨1, "u", "p"⟩], 2, true⟩).q.store
            = ([⟨1, "u", "p"⟩] : List Row).drop
                (TaskUpdateQueue.flush (fun _ => .response 204)
                  ⟨[⟨1, "u", "p"⟩], 2, true⟩).handled
        ∧ ((TaskUpdateQueue.flush (fun _ => .response 204)
              ⟨[⟨1, "u", "p"⟩], 2, true⟩).result = none
            → goodPost ((fun _ => .response 204)
                (TaskUpdateQueue.flush (fun _ => .response 204)
                  ⟨[⟨1, "u", "p"⟩], 2, true⟩).handled) = false)) :=
  ⟨by simp,
    C1_delivered_or_retained (fun _ => .response 204)
      ⟨[⟨1, "u", "p"⟩], 2, true⟩ ⟨1, "u", "p"⟩ (by simp)⟩

/-- C3: when the POST of the i-th queued item (all earlier POSTs having been
handled, the pass having reached it below the item cap) returns HTTP 409,
the pass does not raise there: the item is unqueued, the pass goes on to
POST the next item, the 409'd row is no longer in the store afterwards --
rowids are unique -- and the rows left in the store are exactly the tail of
the snapshot after the handled prefix, so sibling updates for the same URL
that sit further down the queue remain queued. -/
theorem C3_409_discards_only_that_row (mgr : Nat → PostOutcome) (q : QueueState)
    (i : Nat) (h409 : mgr i = .response 409)
    (hprev : ∀ j, j < i → goodPost (mgr j) = true)
    (hlen : i < q.store.length) (hcap : i < 1000) :
    i < (TaskUpdateQueue.flush mgr q).handled
      ∧ (TaskUpdateQueue.flush mgr q).q.store
          = q.store.drop (TaskUpdateQueue.flush mgr q).handled
      ∧ (∀ r, q.store.get? i = some r → (q.store.map Row.rowid).Nodup
          → r ∉ (TaskUpdateQueue.flush mgr q).q.store)
      ∧ (i + 1 < q.store.length
          → i + 2 ≤ (TaskUpdateQueue.flush mgr q).posted.length) := by
  have hgood409 : goodPost (mgr i) = true := by
    rw [h409]
    rfl
  have hreach := flushItems_reaches mgr q.store 0 i hlen
    (fun j hj => by simpa using hprev j hj) (by simpa using hgood409) (by omega)
  have hi_lt : i < (TaskUpdateQueue.flush mgr q).handled := by
    rw [flush_handled]
    omega
  refine ⟨hi_lt, flush_store_drop mgr q, ?_, ?_⟩
  · intro r hri hnd hmem
    rw [flush_store_drop mgr q] at hmem
    have htake : r ∈ q.store.take (TaskUpdateQueue.flush mgr q).handled := by
      refine List.get?_mem (n := i) ?_
      rw [List.get?_eq_getElem?, List.getElem?_take, if_pos (by omega)]
      rw [List.get?_eq_getElem?] at hri
      exact hri
    have h1 : r.rowid ∈ (q.store.take (TaskUpdateQueue.flush mgr q).handled).map Row.rowid :=
      List.mem_map_of_mem _ htake
    have h2 : r.rowid ∈ (q.store.drop (TaskUpdateQueue.flush mgr q).handled).map Row.rowid :=
      List.mem_map_of_mem _ hmem
    have hsplit : (q.store.take (TaskUpdateQueue.flush mgr q).handled).map Row.rowid
        ++ (q.store.drop (TaskUpdateQueue.flush mgr q).handled).map Row.rowid
        = q.store.map Row.rowid := by
      rw [← List.map_append, List.take_append_drop]
    rw [← hsplit] at hnd
    exact (List.nodup_append.mp hnd).2.2 h1 h2
  · intro hlen2
    rw [flush_posted]
    have hpl := flushItems_posted_length mgr q.store 0
    rw [flush_handled] at hi_lt
    by_cases hrs : (flushItems mgr q.store 0).raised = true
    · simp [hrs] at hpl
      omega
    · have hcomp := flushItems_complete mgr q.store 0 (by omega) (by simpa using hrs)
      simp [hrs] at hpl
      rcases hcomp with h | h <;> omega

/-- C3 witness: a two-row store whose first POST gets 409 and whose second
gets 204; the theorem applied at index 0. -/
theorem C3_409_discards_only_that_row_witness :
    (fun k => if k == 0 then PostOutcome.response 409 else PostOutcome.response 204) 0
        = PostOutcome.response 409
      ∧ (0 < (TaskUpdateQueue.flush
            (fun k => if k == 0 then PostOutcome.response 409 else PostOutcome.response 204)
            ⟨[⟨1, "u", "a"⟩, ⟨2, "u", "b"⟩], 3, true⟩).handled
        ∧ (TaskUpdateQueue.flush
              (fun k => if k == 0 then PostOutcome.response 409 else PostOutcome.response 204)
              ⟨[⟨1, "u", "a"⟩, ⟨2, "u", "b"⟩], 3, true⟩).q.store
            = ([⟨1, "u", "a"⟩, ⟨2, "u", "b"⟩] : List Row).drop
                (TaskUpdateQueue.flush
                  (fun k => if k == 0 then PostOutcome.response 409 else PostOutcome.response 204)
                  ⟨[⟨1, "u", "a"⟩, ⟨2, "u", "b"⟩], 3, true⟩).handled
        ∧ (∀ r, ([⟨1, "u", "a"⟩, ⟨2, "u", "b"⟩] : List Row).get? 0 = some r
            → (([⟨1, "u", "a"⟩, ⟨2, "u", "b"⟩] : List Row).map Row.rowid).Nodup
            → r ∉ (TaskUpdateQueue.flush
                (fun k => if k == 0 then PostOutcome.response 409 else PostOutcome.response 204)
                ⟨[⟨1, "u", "a"⟩, ⟨2, "u", "b"⟩], 3, true⟩).q.store)
        ∧ (0 + 1 < ([⟨1, "u", "a"⟩, ⟨2, "u", "b"⟩] : List Row).length
            → 0 + 2 ≤ (TaskUpdateQueue.flush
                (fun k => if k == 0 then PostOutcome.response 409 else PostOutcome.response 204)
                ⟨[⟨1, "u", "a"⟩, ⟨2, "u", "b"⟩], 3, true⟩).posted.length)) :=
  ⟨rfl,
    C3_409_discards_only_that_row
      (fun k => if k == 0 then PostOutcome.response 409 else PostOutcome.response 204)
      ⟨[⟨1, "u", "a"⟩, ⟨2, "u", "b"⟩], 3, true⟩ 0 rfl
      (fun j hj => absurd hj (Nat.not_lt_zero j)) (by simp) (by omega)⟩

/-- C4 counterexample: a POST completing with status 304 -- non-2xx and
non-409 -- does not stop the drain pass as the claim requires:
raise_for_status does not raise on 304, so the item is unqueued, the pass
returns normally and flush_and_catch sleeps nothing. -/
theorem C4_counterexample :
    (TaskUpdateQueue.flush (fun _ => .response 304)
        ⟨[⟨1, "/tasks/t1/update", "p1"⟩], 2, true⟩).result = some false
      ∧ (TaskUpdateQueue.flush (fun _ => .response 304)
          ⟨[⟨1, "/tasks/t1/update", "p1"⟩], 2, true⟩).q.store = []
      ∧ (TaskUpdateQueue.flush_and_catch (fun _ => .response 304) BACKOFF_TIME
          ⟨[⟨1, "/tasks/t1/update", "p1"⟩], 2, true⟩).sleptSeconds = none
      ∧ (304 == 409) = false ∧ 300 ≤ 304 :=
  ⟨rfl, rfl, rfl, rfl, by omega⟩

/-- C4 (amended): when the POST of the i-th queued item (the pass having
reached it) raises a connection error or completes with a status in 400-599
other than 409 -- the outcomes raise_for_status turns into exceptions --
the drain pass stops at that item: flush propagates the exception without a
return value, the failing item and all later items stay in the store, and
flush_and_catch with the default backoff sleeps BACKOFF_TIME = 5 seconds
before the next attempt.  A non-2xx status outside 400-599 does not stop
the pass. -/
theorem C4_bad_post_stops_pass_and_backs_off (mgr : Nat → PostOutcome)
    (q : QueueState) (i : Nat)
    (hlen : i < q.store.length)
    (hprev : ∀ j, j < i → goodPost (mgr j) = true)
    (hbad : goodPost (mgr i) = false)
    (hcap : i ≤ 1000) :
    (TaskUpdateQueue.flush mgr q).result = none
      ∧ (TaskUpdateQueue.flush mgr q).handled = i
      ∧ (TaskUpdateQueue.flush mgr q).q.store = q.store.drop i
      ∧ (TaskUpdateQueue.flush_and_catch mgr BACKOFF_TIME q).sleptSeconds
          = some 5 := by
  have hstops := flushItems_stops_at_bad mgr q.store 0 i hlen
    (fun j hj => by simpa using hprev j hj) (by simpa using hbad) (by omega)
  have hraised := hstops.1
  have hhandled : (flushItems mgr q.store 0).handled = i := by
    have := hstops.2
    omega
  have hres : (TaskUpdateQueue.flush mgr q).result = none := by
    rw [flush_result_eq, if_pos hraised]
  refine ⟨hres, ?_, ?_, ?_⟩
  · rw [flush_handled]
    exact hhandled
  · rw [flush_store_drop, flush_handled, hhandled]
  · simp [TaskUpdateQueue.flush_and_catch, hres, BACKOFF_TIME]

/-- C4 witness: a one-row store whose POST raises a connection error; the
theorem applied at index 0. -/
theorem C4_bad_post_stops_pass_and_backs_off_witness :
    goodPost ((fun _ => PostOutcome.connError) 0) = false
      ∧ ((TaskUpdateQueue.flush (fun _ => .connError)
            ⟨[⟨1, "u", "p"⟩], 2, true⟩).result = none
        ∧ (TaskUpdateQueue.flush (fun _ => .connError)
            ⟨[⟨1, "u", "p"⟩], 2, true⟩).handled = 0
        ∧ (TaskUpdateQueue.flush (fun _ => .connError)
              ⟨[⟨1, "u", "p"⟩], 2, true⟩).q.store
            = ([⟨1, "u", "p"⟩] : List Row).drop 0
        ∧ (TaskUpdateQueue.flush_and_catch (fun _ => .connError) BACKOFF_TIME
            ⟨[⟨1, "u", "p"⟩], 2, true⟩).sleptSeconds = some 5) :=
  ⟨rfl,
    C4_bad_post_stops_pass_and_backs_off (fun _ => .connError)
      ⟨[⟨1, "u", "p"⟩], 2, true⟩ 0 (by simp)
      (fun j hj => absurd hj (Nat.not_lt_zero j)) rfl (by omega)⟩

end FlamencoWorker
